import Mathlib

/-!
Formal model of the transformation core of the spending-forecast tracker
(backend/src/services/forecast_transformation.py and the snapshot-related
parts of backend/src/repositories/forecast_repository.py).

Conventions of the shallow embedding:
* Python strings are modelled as `List Char`.
* Python numeric amounts (floats) are modelled as `ℚ`; no claim depends on
  floating-point rounding, only on which values are combined and how.
* A Python value that may be `None`, an int or a string (the descriptive
  fields read out of a dict) is modelled by `PyVal`.
* Fallible functions return `Except (List Char)` carrying the exception
  message (the source raises `ValueError` with a message in every case).
* `int(...)` parsing is modelled for ASCII digit strings (optional
  surrounding whitespace, optional sign, then decimal digits); the inputs
  split on `_` never contain an underscore, so Python's digit-group
  underscores cannot occur in a part.
-/

namespace ForecastApp

/-- A dynamically typed Python value as read from a dict: `None` (also used
for a missing key, since `dict.get` returns `None` then), an int, or a
string. -/
inductive PyVal where
  | vNone : PyVal
  | vInt : Int → PyVal
  | vStr : List Char → PyVal
deriving DecidableEq

/-- Python truthiness for the values a descriptive field can hold:
`None`, `0` and the empty string are falsy. -/
def PyVal.truthy : PyVal → Bool
  | .vNone => false
  | .vInt i => i != 0
  | .vStr s => !s.isEmpty

/-- The Python expression `a or b`: yields `a` if `a` is truthy, else `b`. -/
def pyOr (a b : PyVal) : PyVal :=
  if a.truthy then a else b

/-- The character for a decimal digit `d < 10` (ASCII `'0'` + d). -/
def digitChar (d : Nat) : Char := Char.ofNat (48 + d)

/-- Decimal digits of `n`, least significant first. -/
def natToRevChars (n : Nat) : List Char :=
  if h : n < 10 then [digitChar n]
  else digitChar (n % 10) :: natToRevChars (n / 10)
termination_by n
decreasing_by exact Nat.div_lt_self (by omega) (by omega)

/-- The decimal rendering of a natural number, as `str` produces it. -/
def natToChars (n : Nat) : List Char := (natToRevChars n).reverse

/-- The rendering of a Python int by `str`/f-string interpolation:
a `-` sign followed by the decimal digits for negatives. -/
def intToChars (i : Int) : List Char :=
  if i < 0 then '-' :: natToChars i.natAbs else natToChars i.toNat

/-- F-string interpolation of a dynamically typed value: ints render in
decimal, strings render as themselves, `None` renders as `"None"`. -/
def PyVal.fstr : PyVal → List Char
  | .vNone => "None".data
  | .vInt i => intToChars i
  | .vStr s => s

/-- Numeric value of a digit character. -/
def charVal (c : Char) : Nat := c.toNat - 48

/-- Big-endian decimal value of a digit string. -/
def parseDigits (l : List Char) : Nat :=
  l.foldl (fun a c => 10 * a + charVal c) 0

/-- Parse a non-empty all-digit string as a natural number;
`none` on anything else. -/
def charsToNat? (l : List Char) : Option Nat :=
  if l.isEmpty then Option.none
  else if l.all Char.isDigit then some (parseDigits l) else Option.none

/-- Strip leading and trailing whitespace, as `int(str)` does before
parsing. -/
def stripChars (l : List Char) : List Char :=
  ((l.dropWhile Char.isWhitespace).reverse.dropWhile Char.isWhitespace).reverse

/-- Python `int(s)` on an underscore-free ASCII string: optional
surrounding whitespace, an optional `+`/`-` sign, then one or more
decimal digits; `none` models the `ValueError` on anything else. -/
def pyParseInt (l : List Char) : Option Int :=
  if (stripChars l).head? = some '+' then
    (charsToNat? (stripChars l).tail).map (fun n => (n : Int))
  else if (stripChars l).head? = some '-' then
    (charsToNat? (stripChars l).tail).map (fun n => -(n : Int))
  else (charsToNat? (stripChars l)).map (fun n => (n : Int))

/-- `str.split('_')`: split on every occurrence of `'_'`; the empty string
yields `[[]]`, and separators at the ends yield empty parts, exactly as in
Python. -/
def splitOnUnd : List Char → List (List Char)
  | [] => [[]]
  | c :: cs =>
    if c = '_' then [] :: splitOnUnd cs
    else
      match splitOnUnd cs with
      | [] => [[c]]
      | p :: ps => (c :: p) :: ps

/-- `encode_forecast_id`: the token `"{project_id}_{year}"`. -/
def encode_forecast_id (project_id year : Int) : List Char :=
  intToChars project_id ++ '_' :: intToChars year

/-- The `ValueError` message raised by `decode_forecast_id`. -/
def invalidFormatMsg (forecast_id : List Char) : List Char :=
  "Invalid forecast_id format: ".data ++ forecast_id

/-- `decode_forecast_id`: split the token on `'_'`; fail unless that gives
exactly two parts and both parse as integers. -/
def decode_forecast_id (forecast_id : List Char) : Except (List Char) (Int × Int) :=
  match splitOnUnd forecast_id with
  | [p, y] =>
    match pyParseInt p, pyParseInt y with
    | some project_id, some year => .ok (project_id, year)
    | _, _ => .error (invalidFormatMsg forecast_id)
  | _ => .error (invalidFormatMsg forecast_id)

/-! ## Yearly/monthly converter (forecast_transformation.py) -/

/-- `MONTH_NAMES` from the source. -/
def MONTH_NAMES : List (List Char) :=
  ["jan".data, "feb".data, "mar".data, "apr".data, "may".data, "jun".data,
   "jul".data, "aug".data, "sep".data, "oct".data, "nov".data, "dec".data]

/-- The yearly-shaped input dict of `yearly_forecast_to_monthly_records`.
`months i` is the value stored under `MONTH_NAMES[i]`: `Option.none` when
the key is absent, `some Option.none` when it holds Python `None`, and
`some (some q)` when it holds the number `q`.  The descriptive keys are
dynamically typed; an absent key reads as `PyVal.vNone` (which is what
`dict.get` returns and what both `or` and the downstream code see). -/
structure YearlyInput where
  months : Fin 12 → Option (Option ℚ)
  department_id : PyVal
  departmentId : PyVal
  project_id : PyVal
  projectId : PyVal
  project_name : PyVal
  projectName : PyVal
  profit_center : PyVal
  profitCenter : PyVal
  wbs : PyVal
  account : PyVal

/-- The month amount the expansion reads for month index `i`:
`yearly_data.get(month_name, 0.0)` followed by the `None → 0.0` coercion. -/
def monthVal (m : Option (Option ℚ)) : ℚ :=
  match m with
  | Option.none => 0
  | some Option.none => 0
  | some (some q) => q

/-- A monthly record as produced by the expansion and consumed by the fold:
the fields of a `ForecastMonth` row / expansion dict that the converter
touches.  `amount` is `Option ℚ` because the fold defensively handles a
`None` amount.  The audit fields `created_by`/`created_at`/`updated_at`
(copied verbatim into the yearly dict when present) are omitted: no claim
concerns them. -/
structure MonthlyRecord where
  month : Int
  amount : Option ℚ
  year : Int
  department_id : PyVal
  project_id : PyVal
  project_name : PyVal
  profit_center : PyVal
  wbs : PyVal
  account : PyVal
deriving DecidableEq

/-- The record built by one iteration of the expansion loop for month
index `i` (month number `i + 1`): amount defaulted from the yearly dict,
descriptive fields copied via Python `or` between the two key spellings
(`wbs` and `account` are read under a single spelling in the source). -/
def expandRecord (yearly_data : YearlyInput) (year : Int) (i : Fin 12) :
    MonthlyRecord :=
  { month := (i : Int) + 1
    amount := some (monthVal (yearly_data.months i))
    year := year
    department_id := pyOr yearly_data.department_id yearly_data.departmentId
    project_id := pyOr yearly_data.project_id yearly_data.projectId
    project_name := pyOr yearly_data.project_name yearly_data.projectName
    profit_center := pyOr yearly_data.profit_center yearly_data.profitCenter
    wbs := yearly_data.wbs
    account := yearly_data.account }

/-- `yearly_forecast_to_monthly_records`: one record per month 1..12, in
month order. -/
def yearly_forecast_to_monthly_records (yearly_data : YearlyInput)
    (year : Int) : List MonthlyRecord :=
  (List.finRange 12).map (expandRecord yearly_data year)

/-- The sort key comparison used by `sorted(monthly_records, key=...)`. -/
def monthLe (a b : MonthlyRecord) : Bool := a.month ≤ b.month

/-- The index into `MONTH_NAMES` for a month number, when it is in range
(`1 <= record.month <= 12`). -/
def monthIdx? (m : Int) : Option (Fin 12) :=
  if h : 1 ≤ m ∧ m ≤ 12 then some ⟨(m - 1).toNat, by omega⟩ else Option.none

/-- `float(record.amount) if record.amount is not None else 0.0`. -/
def coerceAmount (a : Option ℚ) : ℚ := a.getD 0

/-- The extraction loop of `monthly_records_to_yearly_forecast`: walk the
sorted records; each in-range record overwrites its month's entry in the
partial month map and is added to the running total; out-of-range records
are skipped. -/
def extractMonths : List MonthlyRecord → (Fin 12 → Option ℚ) → ℚ →
    ((Fin 12 → Option ℚ) × ℚ)
  | [], yearly, total => (yearly, total)
  | record :: rest, yearly, total =>
    match monthIdx? record.month with
    | some i =>
      let amount := coerceAmount record.amount
      extractMonths rest (Function.update yearly i (some amount)) (total + amount)
    | Option.none => extractMonths rest yearly total

/-- The yearly dict built by `monthly_records_to_yearly_forecast`.
`amounts i` is the value under `MONTH_NAMES[i]` after the fill-missing
step; `id` is the encoded forecast id synthesized from the first sorted
record (whose `project_id` is dynamically typed in the expansion output,
hence rendered with `PyVal.fstr`). -/
@[ext]
structure YearlyView where
  amounts : Fin 12 → ℚ
  total : ℚ
  yearly_sum : ℚ
  department_id : PyVal
  project_id : PyVal
  project_name : PyVal
  profit_center : PyVal
  wbs : PyVal
  account : PyVal
  id : List Char

/-- The `ValueError` message for folding an empty record list. -/
def noRecordsMsg : List Char := "No monthly records provided".data

/-- `monthly_records_to_yearly_forecast`: raise on empty input, sort by
month, run the extraction loop, default unwritten months to `0.0`, set
`total` and `yearly_sum` to the accumulated sum, copy descriptive fields
from the first sorted record, and synthesize the id from its project id
and year.  (The inner `[]` case is unreachable: the sort of a non-empty
list is non-empty.) -/
def monthly_records_to_yearly_forecast (monthly_records : List MonthlyRecord) :
    Except (List Char) YearlyView :=
  if monthly_records.isEmpty then .error noRecordsMsg
  else
    match monthly_records.mergeSort monthLe with
    | [] => .error noRecordsMsg
    | first_record :: rest =>
      .ok
        { amounts := fun i =>
            ((extractMonths (first_record :: rest) (fun _ => Option.none) 0).1 i).getD 0
          total := (extractMonths (first_record :: rest) (fun _ => Option.none) 0).2
          yearly_sum := (extractMonths (first_record :: rest) (fun _ => Option.none) 0).2
          department_id := first_record.department_id
          project_id := first_record.project_id
          project_name := first_record.project_name
          profit_center := first_record.profit_center
          wbs := first_record.wbs
          account := first_record.account
          id := first_record.project_id.fstr ++ '_' :: intToChars first_record.year }

/-! ## Snapshot folding and the snapshot repository
(forecast_repository.py, ForecastSnapshotRepository) -/

/-- A `ForecastSnapshotMonth` row: the fields the modelled code touches
(the `id` primary key is never read). -/
structure SnapshotMonthRow where
  snapshot_header_id : Int
  month : Int
  amount : Option ℚ
  project_name : List Char
  profit_center : List Char
  wbs : List Char
  account : List Char
deriving DecidableEq

/-- A `ForecastSnapshotHeader` row.  Timestamps are modelled as opaque
integers.  (`line_id` is omitted: the modelled repository code never
assigns or reads it.) -/
structure SnapshotHeaderRow where
  id : Int
  department_id : Int
  project_id : Int
  year : Int
  batch_id : List Char
  is_approved : Bool
  snapshot_date : Int
  submitted_by : List Char
  approved_by : Option (List Char)
  approved_at : Option Int
deriving DecidableEq

/-- The sort key comparison for snapshot monthly rows. -/
def snapMonthLe (a b : SnapshotMonthRow) : Bool := a.month ≤ b.month

/-- The extraction loop of `snapshot_header_to_yearly_view` (the source
duplicates the loop of `monthly_records_to_yearly_forecast`). -/
def extractSnapMonths : List SnapshotMonthRow → (Fin 12 → Option ℚ) → ℚ →
    ((Fin 12 → Option ℚ) × ℚ)
  | [], yearly, total => (yearly, total)
  | record :: rest, yearly, total =>
    match monthIdx? record.month with
    | some i =>
      let amount := coerceAmount record.amount
      extractSnapMonths rest (Function.update yearly i (some amount)) (total + amount)
    | Option.none => extractSnapMonths rest yearly total

/-- The yearly view of a snapshot: month amounts and totals as in
`YearlyView`, descriptive fields from the first sorted detail record, and
identification/approval metadata from the header. -/
structure SnapshotYearlyView where
  amounts : Fin 12 → ℚ
  total : ℚ
  yearly_sum : ℚ
  project_name : List Char
  profit_center : List Char
  wbs : List Char
  account : List Char
  id : Int
  forecast_id : List Char
  is_approved : Bool
  snapshot_date : Int
  submitted_by : List Char
  approved_by : Option (List Char)
  approved_at : Option Int
  department_id : Int
  project_id : Int
  year : Int

/-- The `ValueError` message for a snapshot header with no monthly rows. -/
def emptySnapshotMsg : List Char := "Snapshot header has no monthly records".data

/-- `snapshot_header_to_yearly_view`: raise when the header has no monthly
snapshot rows, otherwise fold them exactly as in
`monthly_records_to_yearly_forecast` and attach the header's metadata.
The `monthly_snapshots` relationship is passed explicitly.  (The inner
`[]` case is unreachable: the sort of a non-empty list is non-empty.) -/
def snapshot_header_to_yearly_view (snapshot_header : SnapshotHeaderRow)
    (monthly_snapshots : List SnapshotMonthRow) :
    Except (List Char) SnapshotYearlyView :=
  if monthly_snapshots.isEmpty then .error emptySnapshotMsg
  else
    match monthly_snapshots.mergeSort snapMonthLe with
    | [] => .error emptySnapshotMsg
    | first_record :: rest =>
      .ok
        { amounts := fun i =>
            ((extractSnapMonths (first_record :: rest) (fun _ => Option.none) 0).1 i).getD 0
          total := (extractSnapMonths (first_record :: rest) (fun _ => Option.none) 0).2
          yearly_sum := (extractSnapMonths (first_record :: rest) (fun _ => Option.none) 0).2
          project_name := first_record.project_name
          profit_center := first_record.profit_center
          wbs := first_record.wbs
          account := first_record.account
          id := snapshot_header.id
          forecast_id := encode_forecast_id snapshot_header.project_id snapshot_header.year
          is_approved := snapshot_header.is_approved
          snapshot_date := snapshot_header.snapshot_date
          submitted_by := snapshot_header.submitted_by
          approved_by := snapshot_header.approved_by
          approved_at := snapshot_header.approved_at
          department_id := snapshot_header.department_id
          project_id := snapshot_header.project_id
          year := snapshot_header.year }

/-- A `ForecastMonth` row: the fields the modelled snapshot-repository
code touches (`id`, `line_id` and the audit fields are never read by it). -/
structure ForecastMonthRow where
  department_id : Int
  project_id : Int
  year : Int
  month : Int
  amount : Option ℚ
  project_name : List Char
  profit_center : List Char
  wbs : List Char
  account : List Char
deriving DecidableEq

/-- The sort key comparison for live forecast monthly rows
(`order_by(ForecastMonth.month)`). -/
def forecastMonthLe (a b : ForecastMonthRow) : Bool := a.month ≤ b.month

/-- The database state visible to the snapshot repository.  Inserted rows
are appended; `next_snapshot_header_id` models the autoincrement primary
key handed out at `flush()`. -/
structure DB where
  forecast_months : List ForecastMonthRow
  snapshot_headers : List SnapshotHeaderRow
  snapshot_months : List SnapshotMonthRow
  next_snapshot_header_id : Int
deriving DecidableEq

/-- The `ValueError` message of `create_from_forecast` for a missing
forecast. -/
def notFoundForecastMsg (project_id year : Int) : List Char :=
  "Forecast not found for project_id=".data ++ intToChars project_id ++
    ", year=".data ++ intToChars year

/-- The snapshot header inserted by `create_from_forecast`: department id
from the first source row, the autoincrement id handed out at `flush()`,
`is_approved=False`, and `snapshot_date` defaulted to the current time. -/
def mkSnapshotHeader (db : DB) (project_id year : Int)
    (submitted_by batch_id : List Char) (now : Int)
    (first : ForecastMonthRow) : SnapshotHeaderRow :=
  { id := db.next_snapshot_header_id
    department_id := first.department_id
    project_id := project_id
    year := year
    batch_id := batch_id
    is_approved := false
    snapshot_date := now
    submitted_by := submitted_by
    approved_by := Option.none
    approved_at := Option.none }

/-- One monthly snapshot row copied verbatim from a live monthly row. -/
def copySnapshotMonth (snapshot_header_id : Int) (m : ForecastMonthRow) :
    SnapshotMonthRow :=
  { snapshot_header_id := snapshot_header_id
    month := m.month
    amount := m.amount
    project_name := m.project_name
    profit_center := m.profit_center
    wbs := m.wbs
    account := m.account }

/-- `ForecastSnapshotRepository.create_from_forecast`: query the live
monthly rows for (project_id, year) ordered by month, raise if there are
none, insert a header and one snapshot row copied verbatim per source
row, and return the new state with the yearly view of the created
snapshot.  `now` models `datetime.utcnow` for the `snapshot_date`
default. -/
def create_from_forecast (db : DB) (project_id year : Int)
    (submitted_by batch_id : List Char) (now : Int) :
    Except (List Char) (DB × SnapshotYearlyView) :=
  match (db.forecast_months.filter
      (fun r => r.project_id == project_id && r.year == year)).mergeSort
      forecastMonthLe with
  | [] => .error (notFoundForecastMsg project_id year)
  | first :: rest =>
    match snapshot_header_to_yearly_view
        (mkSnapshotHeader db project_id year submitted_by batch_id now first)
        ((first :: rest).map (copySnapshotMonth db.next_snapshot_header_id)) with
    | .error e => .error e
    | .ok v =>
      .ok
        ({ db with
           snapshot_headers := db.snapshot_headers ++
             [mkSnapshotHeader db project_id year submitted_by batch_id now first]
           snapshot_months := db.snapshot_months ++
             (first :: rest).map (copySnapshotMonth db.next_snapshot_header_id)
           next_snapshot_header_id := db.next_snapshot_header_id + 1 }, v)

/-- The shared batch id of `create_bulk_snapshots`:
`"{department_id}_{int(now.timestamp())}_{uuid4().hex[:8]}"`, with the
clock reading and the uuid fragment taken as explicit inputs. -/
def bulkBatchId (department_id : Int) (now : Int) (uuid_hex : List Char) :
    List Char :=
  intToChars department_id ++ '_' :: intToChars now ++ '_' :: uuid_hex

/-- The `ValueError` message of `create_bulk_snapshots` for a department
with no forecasts. -/
def noForecastsDeptMsg (department_id : Int) : List Char :=
  "No forecasts found for department_id=".data ++ intToChars department_id

/-- The loop of `create_bulk_snapshots`: snapshot each (project_id, year)
pair in turn, threading the database state and accumulating the created
views in order. -/
def create_bulk_go (submitted_by batch_id : List Char) (now : Int) :
    List (Int × Int) → DB → List SnapshotYearlyView →
    Except (List Char) (DB × List SnapshotYearlyView)
  | [], db, acc => .ok (db, acc)
  | (project_id, year) :: rest, db, acc =>
    match create_from_forecast db project_id year submitted_by batch_id now with
    | .error e => .error e
    | .ok (db', s) => create_bulk_go submitted_by batch_id now rest db' (acc ++ [s])

/-- The distinct (project_id, year) pairs of a department's live monthly
rows (`SELECT DISTINCT project_id, year ... WHERE department_id = ...`),
in first-occurrence order. -/
def uniqueForecastPairs (db : DB) (department_id : Int) : List (Int × Int) :=
  ((db.forecast_months.filter (fun r => r.department_id == department_id)).map
    (fun r => (r.project_id, r.year))).dedup

/-- `ForecastSnapshotRepository.create_bulk_snapshots`: generate one batch
id, raise if the department has no forecasts, and snapshot every distinct
(project_id, year) pair under that shared batch id. -/
def create_bulk_snapshots (db : DB) (department_id : Int)
    (submitted_by : List Char) (now : Int) (uuid_hex : List Char) :
    Except (List Char) (DB × List SnapshotYearlyView) :=
  let batch_id := bulkBatchId department_id now uuid_hex
  match uniqueForecastPairs db department_id with
  | [] => .error (noForecastsDeptMsg department_id)
  | pairs@(_ :: _) => create_bulk_go submitted_by batch_id now pairs db []

/-- The in-place mutation `approve` performs on the found header. -/
def approveUpdate (h : SnapshotHeaderRow) (approved_by : List Char)
    (now : Int) : SnapshotHeaderRow :=
  { h with is_approved := true, approved_by := some approved_by,
           approved_at := some now }

/-- Replace the first row with the given primary key by `f` of it
(the ORM mutates the single object returned by `.first()`). -/
def replaceFirstHeader (f : SnapshotHeaderRow → SnapshotHeaderRow)
    (snapshot_id : Int) :
    List SnapshotHeaderRow → List SnapshotHeaderRow
  | [] => []
  | h :: t =>
    if h.id == snapshot_id then f h :: t
    else h :: replaceFirstHeader f snapshot_id t

/-- `ForecastSnapshotRepository.approve`: `None` when no header has the
id; otherwise unconditionally set `is_approved`, `approved_by` and
`approved_at` on the found header, commit, and convert it to a yearly
view (the conversion's possible exception is kept in the inner `Except`,
after the state change, as in the source where `commit()` precedes it). -/
def approve (db : DB) (snapshot_id : Int) (approved_by : List Char)
    (now : Int) :
    Option (DB × Except (List Char) SnapshotYearlyView) :=
  match db.snapshot_headers.find? (fun h => h.id == snapshot_id) with
  | Option.none => Option.none
  | some header =>
    some
      ({ db with
         snapshot_headers :=
           replaceFirstHeader (fun h => approveUpdate h approved_by now)
             snapshot_id db.snapshot_headers },
       snapshot_header_to_yearly_view (approveUpdate header approved_by now)
         (db.snapshot_months.filter (fun m => m.snapshot_header_id == header.id)))

/-! ## Specification-side closed forms for the folding loop -/

/-- The sum of the (coerced) amounts of the records whose month is in
range — what the running total of the folding loop accumulates. -/
def sumInRange (l : List MonthlyRecord) : ℚ :=
  ((l.filter (fun r => (monthIdx? r.month).isSome)).map
    (fun r => coerceAmount r.amount)).sum

/-- The amount written last into month slot `i` by the folding loop when
run over `l` in order: the last record of `l` with that month, if any. -/
def lastAmount (l : List MonthlyRecord) (i : Fin 12) : Option ℚ :=
  (l.reverse.find? (fun r => monthIdx? r.month == some i)).map
    (fun r => coerceAmount r.amount)

/-! ## Concrete example inputs used in witnesses and counterexamples -/

/-- A single stored month: month 1 with amount 5. -/
def sampleRecord1 : MonthlyRecord :=
  { month := 1, amount := some 5, year := 2026, department_id := .vNone
    project_id := .vInt 1, project_name := .vNone, profit_center := .vNone
    wbs := .vNone, account := .vNone }

/-- Duplicate-month example, first record: month 1, amount 2. -/
def dupRecordA : MonthlyRecord :=
  { month := 1, amount := some 2, year := 2026, department_id := .vNone
    project_id := .vInt 1, project_name := .vNone, profit_center := .vNone
    wbs := .vNone, account := .vNone }

/-- Duplicate-month example, second record: month 1, amount 3. -/
def dupRecordB : MonthlyRecord :=
  { month := 1, amount := some 3, year := 2026, department_id := .vNone
    project_id := .vInt 1, project_name := .vNone, profit_center := .vNone
    wbs := .vNone, account := .vNone }

/-- A yearly input whose snake_case department id is the (non-null but
falsy) integer `0` while the camelCase spelling holds `7`. -/
def dupDeptInput : YearlyInput :=
  { months := fun _ => Option.none
    department_id := .vInt 0, departmentId := .vInt 7
    project_id := .vNone, projectId := .vNone
    project_name := .vNone, projectName := .vNone
    profit_center := .vNone, profitCenter := .vNone
    wbs := .vNone, account := .vNone }

/-- A live monthly row for project 3, year 2026, department 2. -/
def sampleForecastRow : ForecastMonthRow :=
  { department_id := 2, project_id := 3, year := 2026, month := 1
    amount := some 5, project_name := "P".data, profit_center := "PC".data
    wbs := "W".data, account := "A".data }

/-- A snapshot header that is already approved. -/
def approvedHeader : SnapshotHeaderRow :=
  { id := 1, department_id := 2, project_id := 3, year := 2026
    batch_id := "b1".data, is_approved := true, snapshot_date := 100
    submitted_by := "alice".data, approved_by := some "bob".data
    approved_at := some 150 }

/-- Its single monthly snapshot row. -/
def sampleSnapMonth : SnapshotMonthRow :=
  { snapshot_header_id := 1, month := 1, amount := some 5
    project_name := "P".data, profit_center := "PC".data
    wbs := "W".data, account := "A".data }

/-- A database with one live forecast row and one approved snapshot. -/
def sampleDB : DB :=
  { forecast_months := [sampleForecastRow]
    snapshot_headers := [approvedHeader]
    snapshot_months := [sampleSnapMonth]
    next_snapshot_header_id := 2 }

/-! ## Lemmas: decimal printing and parsing -/

theorem charVal_digitChar {d : Nat} (h : d < 10) : charVal (digitChar d) = d := by
  interval_cases d <;> rfl

theorem isDigit_digitChar {d : Nat} (h : d < 10) : (digitChar d).isDigit = true := by
  interval_cases d <;> decide

theorem natToRevChars_ne_nil (n : Nat) : natToRevChars n ≠ [] := by
  rw [natToRevChars]
  split <;> simp

theorem natToRevChars_all_digit (n : Nat) :
    ∀ c ∈ natToRevChars n, c.isDigit = true := by
  induction n using Nat.strong_induction_on with
  | _ n ih =>
    rw [natToRevChars]
    split
    · intro c hc
      rw [List.mem_singleton] at hc
      subst hc
      exact isDigit_digitChar (by omega)
    · intro c hc
      rcases List.mem_cons.mp hc with h | h
      · subst h; exact isDigit_digitChar (Nat.mod_lt _ (by omega))
      · exact ih (n / 10) (Nat.div_lt_self (by omega) (by omega)) c h

theorem parseDigits_append (l : List Char) (c : Char) :
    parseDigits (l ++ [c]) = 10 * parseDigits l + charVal c := by
  simp [parseDigits, List.foldl_append]

theorem parseDigits_natToChars (n : Nat) : parseDigits (natToChars n) = n := by
  unfold natToChars
  induction n using Nat.strong_induction_on with
  | _ n ih =>
    rw [natToRevChars]
    split
    · rename_i h
      simp only [List.reverse_singleton]
      show 10 * 0 + charVal (digitChar n) = n
      rw [charVal_digitChar h]
      omega
    · rw [List.reverse_cons, parseDigits_append,
        ih (n / 10) (Nat.div_lt_self (by omega) (by omega)),
        charVal_digitChar (Nat.mod_lt _ (by omega))]
      omega

theorem charsToNat?_natToChars (n : Nat) :
    charsToNat? (natToChars n) = some n := by
  have hne : natToChars n ≠ [] := by
    simpa [natToChars] using natToRevChars_ne_nil n
  have hdig : (natToChars n).all Char.isDigit = true := by
    rw [List.all_eq_true]
    intro c hc
    exact natToRevChars_all_digit n c (List.mem_reverse.mp hc)
  rw [charsToNat?, if_neg (by simpa using hne), if_pos hdig,
    parseDigits_natToChars]

theorem isDigit_not_whitespace {c : Char} (h : c.isDigit = true) :
    c.isWhitespace = false := by
  cases hw : c.isWhitespace with
  | false => rfl
  | true =>
    exfalso
    simp only [Char.isWhitespace, Bool.or_eq_true, decide_eq_true_eq] at hw
    rcases hw with ((h1 | h1) | h1) | h1 <;>
      (subst h1; exact absurd h (by decide))

theorem dropWhile_eq_self_of_false {α : Type} (p : α → Bool) (l : List α)
    (h : ∀ c ∈ l, p c = false) : l.dropWhile p = l := by
  cases l with
  | nil => rfl
  | cons a t => simp [List.dropWhile_cons, h a (List.mem_cons_self a t)]

theorem stripChars_eq_self (l : List Char)
    (h : ∀ c ∈ l, c.isWhitespace = false) : stripChars l = l := by
  unfold stripChars
  rw [dropWhile_eq_self_of_false _ _ h,
    dropWhile_eq_self_of_false _ _ (fun c hc => h c (List.mem_reverse.mp hc)),
    List.reverse_reverse]

theorem pyParseInt_natToChars (n : Nat) :
    pyParseInt (natToChars n) = some (n : Int) := by
  have hdig := natToRevChars_all_digit n
  have hstrip : stripChars (natToChars n) = natToChars n :=
    stripChars_eq_self _ (fun c hc =>
      isDigit_not_whitespace (hdig c (List.mem_reverse.mp hc)))
  have hne : natToChars n ≠ [] := by
    simpa [natToChars] using natToRevChars_ne_nil n
  obtain ⟨c, cs, hcons⟩ := List.exists_cons_of_ne_nil hne
  have hcdig : c.isDigit = true := by
    apply hdig c
    rw [← List.mem_reverse, ← natToChars, hcons]
    exact List.mem_cons_self c cs
  have hplus : c ≠ '+' := by rintro rfl; simp [Char.isDigit] at hcdig
  have hminus : c ≠ '-' := by rintro rfl; simp [Char.isDigit] at hcdig
  have hhead : (natToChars n).head? = some c := by rw [hcons]; rfl
  rw [pyParseInt, hstrip, hhead,
    if_neg (by simp [hplus]), if_neg (by simp [hminus]),
    charsToNat?_natToChars]
  rfl

theorem isDigit_ne_underscore {c : Char} (h : c.isDigit = true) : c ≠ '_' := by
  rintro rfl; simp [Char.isDigit] at h

theorem underscore_not_mem_natToChars (n : Nat) : '_' ∉ natToChars n := by
  intro hc
  exact isDigit_ne_underscore
    (natToRevChars_all_digit n '_' (List.mem_reverse.mp hc)) rfl

theorem splitOnUnd_no_und (l : List Char) (h : '_' ∉ l) :
    splitOnUnd l = [l] := by
  induction l with
  | nil => rfl
  | cons c cs ih =>
    rw [splitOnUnd, if_neg (fun hc => h (by simp [hc])),
      ih (fun hc => h (List.mem_cons_of_mem c hc))]

theorem splitOnUnd_append (a b : List Char) (h : '_' ∉ a) :
    splitOnUnd (a ++ '_' :: b) = a :: splitOnUnd b := by
  induction a with
  | nil => simp [splitOnUnd]
  | cons c cs ih =>
    rw [List.cons_append, splitOnUnd,
      if_neg (fun hc => h (by simp [hc])),
      ih (fun hc => h (List.mem_cons_of_mem c hc))]

/-- C4 as a reusable lemma: the codec round-trips on a non-negative
project id and a non-negative year. -/
theorem decode_encode (p y : Int) (hp : 0 ≤ p) (hy : 0 ≤ y) :
    decode_forecast_id (encode_forecast_id p y) = .ok (p, y) := by
  have henc : encode_forecast_id p y =
      natToChars p.toNat ++ '_' :: natToChars y.toNat := by
    rw [encode_forecast_id, intToChars, if_neg (by omega), intToChars,
      if_neg (by omega)]
  have hsplit : splitOnUnd (encode_forecast_id p y) =
      [natToChars p.toNat, natToChars y.toNat] := by
    rw [henc, splitOnUnd_append _ _ (underscore_not_mem_natToChars _),
      splitOnUnd_no_und _ (underscore_not_mem_natToChars _)]
  rw [decode_forecast_id, hsplit]
  simp only [pyParseInt_natToChars]
  rw [Int.toNat_of_nonneg hp, Int.toNat_of_nonneg hy]

/-- C4: for every non-negative integer project id `p` and every 4-digit
integer year `y`, `decode_forecast_id (encode_forecast_id p y)` succeeds
and returns exactly `(p, y)`. -/
theorem C4_identifier_roundtrip (p y : Int) (hp : 0 ≤ p)
    (hy1 : 1000 ≤ y) (hy2 : y ≤ 9999) :
    decode_forecast_id (encode_forecast_id p y) = .ok (p, y) :=
  decode_encode p y hp (by omega)

/-- Witness for C4 at `p = 7`, `y = 2026`. -/
theorem C4_identifier_roundtrip_witness :
    decode_forecast_id (encode_forecast_id 7 2026) = .ok (7, 2026) :=
  C4_identifier_roundtrip 7 2026 (by norm_num) (by norm_num) (by norm_num)

/-- C5: `decode_forecast_id` fails (with the FormatError message) exactly
when splitting the token on `'_'` does not yield two parts each parseable
as an integer; in particular `"abc"`, `"1_2_3"` and `"1_abc"` all fail. -/
theorem C5_decode_failure :
    (∀ s : List Char, (∃ e, decode_forecast_id s = .error e) ↔
      ¬ ∃ a b, splitOnUnd s = [a, b] ∧
        (pyParseInt a).isSome = true ∧ (pyParseInt b).isSome = true)
    ∧ decode_forecast_id "abc".data = .error (invalidFormatMsg "abc".data)
    ∧ decode_forecast_id "1_2_3".data = .error (invalidFormatMsg "1_2_3".data)
    ∧ decode_forecast_id "1_abc".data = .error (invalidFormatMsg "1_abc".data) := by
  refine ⟨fun s => ⟨?_, ?_⟩, rfl, rfl, rfl⟩
  · rintro ⟨e, he⟩ ⟨a, b, hab, ha, hb⟩
    rcases hpa : pyParseInt a with _ | pa
    · rw [hpa] at ha; exact absurd ha (by simp)
    rcases hpb : pyParseInt b with _ | pb
    · rw [hpb] at hb; exact absurd hb (by simp)
    simp [decode_forecast_id, hab, hpa, hpb] at he
  · intro hno
    refine ⟨invalidFormatMsg s, ?_⟩
    rcases hsp : splitOnUnd s with _ | ⟨a, _ | ⟨b, _ | ⟨c, rest⟩⟩⟩
    · simp [decode_forecast_id, hsp]
    · simp [decode_forecast_id, hsp]
    · rcases hpa : pyParseInt a with _ | pa
      · rcases hpb : pyParseInt b with _ | pb <;>
          simp [decode_forecast_id, hsp, hpa, hpb]
      rcases hpb : pyParseInt b with _ | pb
      · simp [decode_forecast_id, hsp, hpa, hpb]
      · exact absurd ⟨a, b, hsp, by simp [hpa], by simp [hpb]⟩ hno
    · simp [decode_forecast_id, hsp]

/-! ## Lemmas: the folding loop -/

theorem monthIdx?_inj {a b : Int} {i : Fin 12} (ha : monthIdx? a = some i)
    (hb : monthIdx? b = some i) : a = b := by
  unfold monthIdx? at ha hb
  split at ha
  · split at hb
    · rename_i h1 h2
      simp only [Option.some.injEq] at ha hb
      have ha' := congrArg Fin.val ha
      have hb' := congrArg Fin.val hb
      simp only at ha' hb'
      omega
    · exact absurd hb (by simp)
  · exact absurd ha (by simp)

theorem sumInRange_perm {l l' : List MonthlyRecord} (h : l.Perm l') :
    sumInRange l = sumInRange l' :=
  List.Perm.sum_eq (List.Perm.map _ (List.Perm.filter _ h))

theorem extractMonths_snd (l : List MonthlyRecord) :
    ∀ (st : Fin 12 → Option ℚ) (t : ℚ),
      (extractMonths l st t).2 = t + sumInRange l := by
  induction l with
  | nil => intro st t; simp [extractMonths, sumInRange]
  | cons r rest ih =>
    intro st t
    rw [extractMonths]
    split
    · rename_i i h
      dsimp only
      rw [ih]
      have hs : sumInRange (r :: rest) = coerceAmount r.amount + sumInRange rest := by
        simp [sumInRange, List.filter_cons, h]
      rw [hs]; ring
    · rename_i h
      rw [ih]
      have hs : sumInRange (r :: rest) = sumInRange rest := by
        simp [sumInRange, List.filter_cons, h]
      rw [hs]

theorem lastAmount_nil (i : Fin 12) : lastAmount [] i = Option.none := rfl

theorem lastAmount_cons (r : MonthlyRecord) (rest : List MonthlyRecord)
    (i : Fin 12) :
    lastAmount (r :: rest) i =
      (lastAmount rest i).or
        (if monthIdx? r.month = some i then some (coerceAmount r.amount)
         else Option.none) := by
  unfold lastAmount
  rw [List.reverse_cons, List.find?_append]
  cases hf : List.find? (fun r' => monthIdx? r'.month == some i) rest.reverse with
  | some x => simp [Option.or]
  | none =>
    simp only [Option.none_or]
    by_cases hc : monthIdx? r.month = some i
    · simp [List.find?_cons, hc]
    · simp [List.find?_cons, hc]

theorem extractMonths_fst (l : List MonthlyRecord) :
    ∀ (st : Fin 12 → Option ℚ) (t : ℚ) (i : Fin 12),
      (extractMonths l st t).1 i = (lastAmount l i).or (st i) := by
  induction l with
  | nil => intro st t i; simp [extractMonths, lastAmount]
  | cons r rest ih =>
    intro st t i
    rw [extractMonths]
    split
    · rename_i j h
      dsimp only
      rw [ih, lastAmount_cons]
      cases hrest : lastAmount rest i with
      | some q => simp [Option.or]
      | none =>
        simp only [Option.none_or]
        by_cases hij : i = j
        · subst hij
          rw [Function.update_same, if_pos h]
          simp [Option.or]
        · rw [Function.update_noteq hij]
          have hcond : ¬ monthIdx? r.month = some i := by
            rw [h]
            exact fun hc => hij (Option.some.inj hc).symm
          rw [if_neg hcond, Option.none_or]
    · rename_i h
      rw [ih, lastAmount_cons, h]
      simp only [reduceCtorEq, if_neg, Option.or_none]
      rw [if_neg (by simp), Option.or_none]

theorem lastAmount_eq_none {l : List MonthlyRecord} {i : Fin 12}
    (h : ∀ r ∈ l, monthIdx? r.month ≠ some i) : lastAmount l i = Option.none := by
  unfold lastAmount
  rw [List.find?_eq_none.mpr]
  · rfl
  · intro x hx
    simp only [beq_iff_eq]
    exact h x (List.mem_reverse.mp hx)

theorem lastAmount_of_unique {l : List MonthlyRecord} {r : MonthlyRecord}
    {i : Fin 12} (hmem : r ∈ l) (hidx : monthIdx? r.month = some i)
    (hdis : l.Pairwise (fun a b => a.month ≠ b.month)) :
    lastAmount l i = some (coerceAmount r.amount) := by
  induction l with
  | nil => cases hmem
  | cons a rest ih =>
    rw [lastAmount_cons]
    rcases List.mem_cons.mp hmem with rfl | hmem'
    · have hrest : lastAmount rest i = Option.none := by
        apply lastAmount_eq_none
        intro x hx hxi
        exact (List.pairwise_cons.mp hdis).1 x hx (monthIdx?_inj hidx hxi)
      rw [hrest, Option.none_or, if_pos hidx]
    · rw [ih hmem' (List.pairwise_cons.mp hdis).2]
      simp [Option.or]

/-- Normal form of a successful fold: on a non-empty input the fold
returns the view whose month map is the last-written amount per month
slot over the sorted records, whose totals are the sum of the in-range
amounts, and whose descriptive fields come from the first sorted
record. -/
theorem fold_ok (l : List MonthlyRecord) (h : l ≠ []) :
    ∃ first rest, l.mergeSort monthLe = first :: rest ∧
      monthly_records_to_yearly_forecast l = .ok
        { amounts := fun i => (lastAmount (l.mergeSort monthLe) i).getD 0
          total := sumInRange l
          yearly_sum := sumInRange l
          department_id := first.department_id
          project_id := first.project_id
          project_name := first.project_name
          profit_center := first.profit_center
          wbs := first.wbs
          account := first.account
          id := first.project_id.fstr ++ '_' :: intToChars first.year } := by
  have hperm := List.mergeSort_perm l monthLe
  have hne : l.mergeSort monthLe ≠ [] := by
    intro h0
    rw [h0] at hperm
    exact h (List.Perm.eq_nil hperm.symm)
  obtain ⟨first, rest, hcons⟩ := List.exists_cons_of_ne_nil hne
  refine ⟨first, rest, hcons, ?_⟩
  rw [monthly_records_to_yearly_forecast,
    if_neg (by simpa [List.isEmpty_iff] using h), hcons]
  refine congrArg Except.ok ?_
  have hsum : (extractMonths (first :: rest) (fun _ => Option.none) 0).2 =
      sumInRange l := by
    rw [extractMonths_snd, ← hcons, sumInRange_perm hperm, zero_add]
  refine YearlyView.ext ?_ hsum hsum rfl rfl rfl rfl rfl rfl rfl
  funext i
  dsimp only
  rw [extractMonths_fst, ← hcons, Option.or_none]

/-- Summing the per-month last-written amounts over all twelve slots
recovers the in-range amount sum, provided every record is in range and
months are pairwise distinct. -/
theorem sum_lastAmount_getD {m : List MonthlyRecord}
    (hin : ∀ r ∈ m, (monthIdx? r.month).isSome = true)
    (hdis : m.Pairwise (fun a b => a.month ≠ b.month)) :
    (∑ i : Fin 12, (lastAmount m i).getD 0) = sumInRange m := by
  induction m with
  | nil => simp [lastAmount_nil, sumInRange]
  | cons r rest ih =>
    obtain ⟨j, hj⟩ :=
      Option.isSome_iff_exists.mp (hin r (List.mem_cons_self r rest))
    have hrest0 : lastAmount rest j = Option.none :=
      lastAmount_eq_none
        (fun x hx hxi => (List.pairwise_cons.mp hdis).1 x hx (monthIdx?_inj hj hxi))
    have hpoint : ∀ i : Fin 12, (lastAmount (r :: rest) i).getD 0 =
        Function.update (fun i => (lastAmount rest i).getD 0) j
          (coerceAmount r.amount) i := by
      intro i
      rw [lastAmount_cons]
      by_cases hij : i = j
      · subst hij
        rw [hrest0, Option.none_or, if_pos hj, Function.update_same]
        rfl
      · rw [Function.update_noteq hij]
        have hcond : ¬ monthIdx? r.month = some i := by
          rw [hj]; exact fun hc => hij (Option.some.inj hc).symm
        rw [if_neg hcond, Option.or_none]
    rw [Finset.sum_congr rfl (fun i _ => hpoint i),
      Finset.sum_update_of_mem (Finset.mem_univ j),
      Finset.sdiff_singleton_eq_erase, Finset.sum_erase _ (by rw [hrest0]; rfl),
      ih (fun x hx => hin x (List.mem_cons_of_mem r hx))
        (List.pairwise_cons.mp hdis).2]
    simp [sumInRange, List.filter_cons, hj]

/-- C2: folding a non-empty collection sorts by month, writes each
in-range record's (null-coerced) amount into its named month slot with
later records overwriting earlier ones, accumulates exactly the in-range
amounts into the total, ignores out-of-range months, defaults unwritten
months to 0.0, and sets both `total` and `yearly_sum` to the accumulated
sum. -/
theorem C2_fold_characterization (l : List MonthlyRecord) (h : l ≠ []) :
    ∃ v, monthly_records_to_yearly_forecast l = .ok v ∧
      v.total = sumInRange l ∧
      v.yearly_sum = v.total ∧
      (∀ i : Fin 12, v.amounts i = (lastAmount (l.mergeSort monthLe) i).getD 0) ∧
      (∀ i : Fin 12, (∀ r ∈ l, monthIdx? r.month ≠ some i) → v.amounts i = 0) := by
  obtain ⟨first, rest, hcons, hfold⟩ := fold_ok l h
  refine ⟨_, hfold, rfl, rfl, fun i => rfl, fun i hi => ?_⟩
  dsimp only
  rw [lastAmount_eq_none (fun r hr => hi r (List.mem_mergeSort.mp hr))]
  rfl

/-- Witness for C2 at the one-record list `[sampleRecord1]`. -/
theorem C2_fold_characterization_witness :
    ([sampleRecord1] : List MonthlyRecord) ≠ [] ∧
    ∃ v, monthly_records_to_yearly_forecast [sampleRecord1] = .ok v ∧
      v.total = sumInRange [sampleRecord1] ∧
      v.yearly_sum = v.total ∧
      (∀ i : Fin 12, v.amounts i =
        (lastAmount ([sampleRecord1].mergeSort monthLe) i).getD 0) ∧
      (∀ i : Fin 12, (∀ r ∈ [sampleRecord1], monthIdx? r.month ≠ some i) →
        v.amounts i = 0) :=
  ⟨by simp, C2_fold_characterization [sampleRecord1] (by simp)⟩

/-- Witness for C5: the characterization instantiated at the token
`"abc"`. -/
theorem C5_decode_failure_witness :
    (∃ e, decode_forecast_id "abc".data = .error e) ↔
      ¬ ∃ a b, splitOnUnd "abc".data = [a, b] ∧
        (pyParseInt a).isSome = true ∧ (pyParseInt b).isSome = true :=
  C5_decode_failure.1 "abc".data

/-- C6: folding zero records fails, in both folding variants, with the
respective EmptyInputError message. -/
theorem C6_empty_folding :
    monthly_records_to_yearly_forecast [] = .error noRecordsMsg ∧
    ∀ hdr : SnapshotHeaderRow,
      snapshot_header_to_yearly_view hdr [] = .error emptySnapshotMsg :=
  ⟨rfl, fun _ => rfl⟩

/-- C9: with pairwise-distinct in-range months the output totals equal
the sum of the twelve named month fields; with a duplicated month the
running total keeps both amounts while the month field keeps only the
last-sorted one, so the equation fails (months 1 and 1 with amounts 2 and
3: total 5, jan 3). -/
theorem C9_totals_distinct_months :
    (∀ l : List MonthlyRecord, l ≠ [] →
      (∀ r ∈ l, 1 ≤ r.month ∧ r.month ≤ 12) →
      l.Pairwise (fun a b => a.month ≠ b.month) →
      ∃ v, monthly_records_to_yearly_forecast l = .ok v ∧
        v.total = ∑ i : Fin 12, v.amounts i ∧ v.yearly_sum = v.total)
    ∧ (∃ v, monthly_records_to_yearly_forecast [dupRecordA, dupRecordB] = .ok v ∧
        v.total = 5 ∧ v.amounts ⟨0, by norm_num⟩ = 3 ∧
        ¬ v.total = ∑ i : Fin 12, v.amounts i) := by
  constructor
  · intro l hne hin hdis
    obtain ⟨first, rest, hcons, hfold⟩ := fold_ok l hne
    refine ⟨_, hfold, ?_, rfl⟩
    dsimp only
    rw [sum_lastAmount_getD, sumInRange_perm (List.mergeSort_perm l monthLe)]
    · intro r hr
      obtain ⟨h1, h2⟩ := hin r (List.mem_mergeSort.mp hr)
      unfold monthIdx?
      rw [dif_pos ⟨h1, h2⟩]
      rfl
    · exact ((List.mergeSort_perm l monthLe).pairwise_iff
        (fun hxy => hxy.symm)).mpr hdis
  · have hsorted : ([dupRecordA, dupRecordB] : List MonthlyRecord).mergeSort
        monthLe = [dupRecordA, dupRecordB] :=
      List.mergeSort_of_sorted (by decide)
    have hm1 : monthIdx? (1 : Int) = some ⟨0, by norm_num⟩ := rfl
    have htotal : sumInRange [dupRecordA, dupRecordB] = 5 := by
      simp [sumInRange, List.filter_cons, dupRecordA, dupRecordB, hm1,
        coerceAmount]
      norm_num
    have hamounts : ∀ i : Fin 12,
        (lastAmount [dupRecordA, dupRecordB] i).getD 0 =
          if i = (⟨0, by norm_num⟩ : Fin 12) then 3 else 0 := by decide
    obtain ⟨first, rest, hcons, hfold⟩ :=
      fold_ok [dupRecordA, dupRecordB] (by simp)
    refine ⟨_, hfold, ?_, ?_, ?_⟩
    · exact htotal
    · show (lastAmount ([dupRecordA, dupRecordB].mergeSort monthLe)
          ⟨0, by norm_num⟩).getD 0 = 3
      rw [hsorted, hamounts]
      simp
    · show ¬ sumInRange [dupRecordA, dupRecordB] =
        ∑ i : Fin 12,
          (lastAmount ([dupRecordA, dupRecordB].mergeSort monthLe) i).getD 0
      rw [htotal, hsorted]
      intro hcontra
      rw [Finset.sum_congr rfl (fun i _ => hamounts i)] at hcontra
      simp [Finset.sum_ite_eq'] at hcontra

/-- Witness for C9: the distinct-months equation instantiated at the
one-record list `[sampleRecord1]`. -/
theorem C9_totals_distinct_months_witness :
    ∃ v, monthly_records_to_yearly_forecast [sampleRecord1] = .ok v ∧
      v.total = ∑ i : Fin 12, v.amounts i ∧ v.yearly_sum = v.total :=
  C9_totals_distinct_months.1 [sampleRecord1] (by simp) (by decide) (by decide)

/-! ## Lemmas: the expansion -/

theorem expand_month_idx (i : Fin 12) : monthIdx? ((i : Int) + 1) = some i := by
  unfold monthIdx?
  rw [dif_pos (by omega)]
  congr 1
  apply Fin.ext
  show ((i : Int) + 1 - 1).toNat = i.val
  omega

theorem expand_pairwise_monthLe (inp : YearlyInput) (year : Int) :
    List.Pairwise (fun a b => monthLe a b = true)
      (yearly_forecast_to_monthly_records inp year) := by
  unfold yearly_forecast_to_monthly_records
  rw [List.pairwise_map]
  apply (List.pairwise_lt_finRange 12).imp
  intro a b hab
  have h : (a : ℕ) < b := hab
  simp only [monthLe, expandRecord, decide_eq_true_eq]
  omega

theorem expand_pairwise_month_ne (inp : YearlyInput) (year : Int) :
    List.Pairwise (fun a b : MonthlyRecord => a.month ≠ b.month)
      (yearly_forecast_to_monthly_records inp year) := by
  unfold yearly_forecast_to_monthly_records
  rw [List.pairwise_map]
  apply (List.pairwise_lt_finRange 12).imp
  intro a b hab
  have h : (a : ℕ) < b := hab
  simp only [expandRecord]
  intro hc
  omega

theorem expand_sorted (inp : YearlyInput) (year : Int) :
    (yearly_forecast_to_monthly_records inp year).mergeSort monthLe =
      yearly_forecast_to_monthly_records inp year :=
  List.mergeSort_of_sorted (expand_pairwise_monthLe inp year)

theorem expand_ne_nil (inp : YearlyInput) (year : Int) :
    yearly_forecast_to_monthly_records inp year ≠ [] := by
  unfold yearly_forecast_to_monthly_records
  simp [List.finRange]

/-- C1: folding the expansion of any yearly-shaped input reproduces the
input's twelve (null-coerced) month amounts and yields `total` and
`yearly_sum` equal to their sum. -/
theorem C1_expand_fold_roundtrip (inp : YearlyInput) (year : Int) :
    ∃ v, monthly_records_to_yearly_forecast
        (yearly_forecast_to_monthly_records inp year) = .ok v ∧
      (∀ i : Fin 12, v.amounts i = monthVal (inp.months i)) ∧
      v.total = ∑ i : Fin 12, monthVal (inp.months i) ∧
      v.yearly_sum = v.total := by
  obtain ⟨first, rest, hcons, hfold⟩ :=
    fold_ok (yearly_forecast_to_monthly_records inp year) (expand_ne_nil inp year)
  refine ⟨_, hfold, ?_, ?_, rfl⟩
  · intro i
    dsimp only
    rw [expand_sorted]
    have hmem : expandRecord inp year i ∈
        yearly_forecast_to_monthly_records inp year :=
      List.mem_map_of_mem _ (List.mem_finRange i)
    rw [lastAmount_of_unique hmem (expand_month_idx i)
      (expand_pairwise_month_ne inp year)]
    rfl
  · dsimp only
    unfold sumInRange yearly_forecast_to_monthly_records
    rw [List.filter_map]
    have hfil : List.filter
        ((fun r => (monthIdx? r.month).isSome) ∘ expandRecord inp year)
        (List.finRange 12) = List.finRange 12 :=
      List.filter_eq_self.mpr (fun a _ => by
        simp [Function.comp, expandRecord, expand_month_idx a])
    rw [hfil, List.map_map, Fin.sum_univ_def]
    rfl

/-- C3: the expansion is total and returns exactly twelve records, the
`k`-th having month `k + 1` and the (missing/null-defaulted) amount of
the corresponding named month field. -/
theorem C3_expand_shape (inp : YearlyInput) (year : Int) :
    (yearly_forecast_to_monthly_records inp year).length = 12 ∧
    ∀ i : Fin 12,
      (yearly_forecast_to_monthly_records inp year).get? i.val =
        some (expandRecord inp year i) ∧
      (expandRecord inp year i).month = (i : Int) + 1 ∧
      (expandRecord inp year i).amount = some (monthVal (inp.months i)) := by
  constructor
  · simp [yearly_forecast_to_monthly_records]
  · intro i
    refine ⟨?_, rfl, rfl⟩
    unfold yearly_forecast_to_monthly_records
    rw [List.get?_eq_getElem?, List.getElem?_map]
    have hlt : i.val < (List.finRange 12).length := by
      rw [List.length_finRange]; exact i.isLt
    rw [List.getElem?_eq_getElem hlt, List.getElem_finRange]
    rfl

/-- C7 as stated is false: "first non-null wins" fails when the first
spelling holds the non-null but falsy value `0` — the code's `or` then
takes the second spelling.  At `dupDeptInput` (`department_id = 0`,
`departmentId = 7`) the claim predicts every record carries `0`, but the
code copies `7`. -/
theorem C7_counterexample :
    ¬ ∀ r ∈ yearly_forecast_to_monthly_records dupDeptInput 2026,
        r.department_id = PyVal.vInt 0 := by
  intro h
  have hmem : expandRecord dupDeptInput 2026 ⟨0, by norm_num⟩ ∈
      yearly_forecast_to_monthly_records dupDeptInput 2026 :=
    List.mem_map_of_mem _ (List.mem_finRange _)
  have hval := h _ hmem
  simp [expandRecord, dupDeptInput, pyOr, PyVal.truthy] at hval

/-- C7 (amended): each descriptive field is copied identically onto all
twelve records, with Python `or` semantics between the two spellings: the
snake_case value wins when truthy (not `None`, `0` or the empty string),
otherwise the camelCase value is used; `wbs` and `account` have a single
spelling. -/
theorem C7_descriptive_copy (inp : YearlyInput) (year : Int)
    (r : MonthlyRecord)
    (hr : r ∈ yearly_forecast_to_monthly_records inp year) :
    r.department_id =
      (if inp.department_id.truthy then inp.department_id
       else inp.departmentId) ∧
    r.project_id =
      (if inp.project_id.truthy then inp.project_id else inp.projectId) ∧
    r.project_name =
      (if inp.project_name.truthy then inp.project_name
       else inp.projectName) ∧
    r.profit_center =
      (if inp.profit_center.truthy then inp.profit_center
       else inp.profitCenter) ∧
    r.wbs = inp.wbs ∧ r.account = inp.account := by
  unfold yearly_forecast_to_monthly_records at hr
  obtain ⟨i, -, rfl⟩ := List.mem_map.mp hr
  exact ⟨rfl, rfl, rfl, rfl, rfl, rfl⟩

/-- Witness for the amended C7 at `dupDeptInput`, month index 0. -/
theorem C7_descriptive_copy_witness :
    (expandRecord dupDeptInput 2026 ⟨0, by norm_num⟩).department_id =
      (if dupDeptInput.department_id.truthy then dupDeptInput.department_id
       else dupDeptInput.departmentId) ∧
    (expandRecord dupDeptInput 2026 ⟨0, by norm_num⟩).project_id =
      (if dupDeptInput.project_id.truthy then dupDeptInput.project_id
       else dupDeptInput.projectId) ∧
    (expandRecord dupDeptInput 2026 ⟨0, by norm_num⟩).project_name =
      (if dupDeptInput.project_name.truthy then dupDeptInput.project_name
       else dupDeptInput.projectName) ∧
    (expandRecord dupDeptInput 2026 ⟨0, by norm_num⟩).profit_center =
      (if dupDeptInput.profit_center.truthy then dupDeptInput.profit_center
       else dupDeptInput.profitCenter) ∧
    (expandRecord dupDeptInput 2026 ⟨0, by norm_num⟩).wbs = dupDeptInput.wbs ∧
    (expandRecord dupDeptInput 2026 ⟨0, by norm_num⟩).account =
      dupDeptInput.account :=
  C7_descriptive_copy dupDeptInput 2026 _
    (List.mem_map_of_mem _ (List.mem_finRange _))

/-! ## Lemmas: the snapshot repository -/

theorem snapshot_view_ok (hdr : SnapshotHeaderRow)
    (ms : List SnapshotMonthRow) (h : ms ≠ []) :
    ∃ v, snapshot_header_to_yearly_view hdr ms = .ok v := by
  have hne : ms.mergeSort snapMonthLe ≠ [] := by
    intro h0
    have hperm := List.mergeSort_perm ms snapMonthLe
    rw [h0] at hperm
    exact h (List.Perm.eq_nil hperm.symm)
  obtain ⟨f, r, hcons⟩ := List.exists_cons_of_ne_nil hne
  rw [snapshot_header_to_yearly_view,
    if_neg (by simpa [List.isEmpty_iff] using h), hcons]
  exact ⟨_, rfl⟩

theorem create_from_forecast_ok (db : DB) (pid yr : Int)
    (sub bid : List Char) (now : Int) (r0 : ForecastMonthRow)
    (hr : r0 ∈ db.forecast_months) (hpid : r0.project_id = pid)
    (hyr : r0.year = yr) :
    ∃ first rest v,
      create_from_forecast db pid yr sub bid now =
        .ok
          ({ db with
             snapshot_headers := db.snapshot_headers ++
               [mkSnapshotHeader db pid yr sub bid now first]
             snapshot_months := db.snapshot_months ++
               (first :: rest).map (copySnapshotMonth db.next_snapshot_header_id)
             next_snapshot_header_id := db.next_snapshot_header_id + 1 }, v) := by
  have hfil : r0 ∈ db.forecast_months.filter
      (fun r => r.project_id == pid && r.year == yr) :=
    List.mem_filter.mpr ⟨hr, by simp [hpid, hyr]⟩
  have hne : (db.forecast_months.filter
      (fun r => r.project_id == pid && r.year == yr)).mergeSort
      forecastMonthLe ≠ [] := by
    intro h0
    have hm : r0 ∈ (db.forecast_months.filter
        (fun r => r.project_id == pid && r.year == yr)).mergeSort
        forecastMonthLe := List.mem_mergeSort.mpr hfil
    rw [h0] at hm
    cases hm
  obtain ⟨first, rest, hcons⟩ := List.exists_cons_of_ne_nil hne
  obtain ⟨v, hv⟩ := snapshot_view_ok
    (mkSnapshotHeader db pid yr sub bid now first)
    ((first :: rest).map (copySnapshotMonth db.next_snapshot_header_id))
    (by simp)
  refine ⟨first, rest, v, ?_⟩
  rw [create_from_forecast, hcons]
  dsimp only
  rw [hv]

theorem create_bulk_go_ok (sub bid : List Char) (now : Int) :
    ∀ (pairs : List (Int × Int)) (db : DB) (acc : List SnapshotYearlyView),
      (∀ p ∈ pairs, ∃ r ∈ db.forecast_months,
        r.project_id = p.1 ∧ r.year = p.2) →
      ∃ db' views newHeaders,
        create_bulk_go sub bid now pairs db acc = .ok (db', views) ∧
        views.length = acc.length + pairs.length ∧
        db'.forecast_months = db.forecast_months ∧
        db'.snapshot_headers = db.snapshot_headers ++ newHeaders ∧
        newHeaders.length = pairs.length ∧
        ∀ h ∈ newHeaders, h.batch_id = bid := by
  intro pairs
  induction pairs with
  | nil =>
    intro db acc h
    exact ⟨db, acc, [], rfl, by simp, rfl, by simp, rfl, by simp⟩
  | cons p rest ih =>
    intro db acc hp
    obtain ⟨pid, yr⟩ := p
    obtain ⟨r0, hr0, hpid, hyr⟩ := hp (pid, yr) (List.mem_cons_self _ _)
    obtain ⟨first, frest, v, hcreate⟩ :=
      create_from_forecast_ok db pid yr sub bid now r0 hr0 hpid hyr
    obtain ⟨db', views, newHeaders, hgo, hlen, hfm, hsh, hnh, hbatch⟩ :=
      ih { db with
           snapshot_headers := db.snapshot_headers ++
             [mkSnapshotHeader db pid yr sub bid now first]
           snapshot_months := db.snapshot_months ++
             (first :: frest).map (copySnapshotMonth db.next_snapshot_header_id)
           next_snapshot_header_id := db.next_snapshot_header_id + 1 }
        (acc ++ [v]) (fun q hq => hp q (List.mem_cons_of_mem _ hq))
    refine ⟨db', views,
      mkSnapshotHeader db pid yr sub bid now first :: newHeaders,
      ?_, ?_, ?_, ?_, ?_, ?_⟩
    · rw [create_bulk_go, hcreate]
      dsimp only
      exact hgo
    · rw [hlen]; simp; omega
    · exact hfm
    · rw [hsh]; simp
    · simp [hnh]
    · intro h hh
      rcases List.mem_cons.mp hh with rfl | hh'
      · rfl
      · exact hbatch h hh'

/-- C8: bulk snapshot creation for a department produces one header per
distinct (project_id, year) pair, all sharing the single generated batch
id, and fails with the NotFoundError message when the department has no
forecast rows at all. -/
theorem C8_bulk_snapshots (db : DB) (dept : Int) (sub : List Char)
    (now : Int) (uuid : List Char) :
    (uniqueForecastPairs db dept = [] →
      create_bulk_snapshots db dept sub now uuid =
        .error (noForecastsDeptMsg dept)) ∧
    (uniqueForecastPairs db dept ≠ [] →
      ∃ db' views newHeaders,
        create_bulk_snapshots db dept sub now uuid = .ok (db', views) ∧
        db'.snapshot_headers = db.snapshot_headers ++ newHeaders ∧
        newHeaders.length = (uniqueForecastPairs db dept).length ∧
        views.length = (uniqueForecastPairs db dept).length ∧
        ∀ h ∈ newHeaders, h.batch_id = bulkBatchId dept now uuid) := by
  constructor
  · intro h
    rw [create_bulk_snapshots, h]
  · intro h
    obtain ⟨q, qs, hcons⟩ := List.exists_cons_of_ne_nil h
    have hp : ∀ p ∈ uniqueForecastPairs db dept,
        ∃ r ∈ db.forecast_months, r.project_id = p.1 ∧ r.year = p.2 := by
      intro p hpmem
      unfold uniqueForecastPairs at hpmem
      obtain ⟨r, hrf, hrp⟩ := List.mem_map.mp (List.mem_dedup.mp hpmem)
      refine ⟨r, (List.mem_filter.mp hrf).1, ?_, ?_⟩
      · rw [← hrp]
      · rw [← hrp]
    obtain ⟨db', views, newHeaders, hgo, hlen, hfm, hsh, hnh, hbatch⟩ :=
      create_bulk_go_ok sub (bulkBatchId dept now uuid) now
        (uniqueForecastPairs db dept) db [] hp
    refine ⟨db', views, newHeaders, ?_, hsh, hnh, by simpa using hlen, hbatch⟩
    rw [create_bulk_snapshots, hcons]
    rw [hcons] at hgo
    exact hgo

/-- Witness for C8 at `sampleDB`, department 2 (one distinct pair). -/
theorem C8_bulk_snapshots_witness :
    uniqueForecastPairs sampleDB 2 ≠ [] ∧
    ∃ db' views newHeaders,
      create_bulk_snapshots sampleDB 2 "dana".data 300 "u1".data =
        .ok (db', views) ∧
      db'.snapshot_headers = sampleDB.snapshot_headers ++ newHeaders ∧
      newHeaders.length = (uniqueForecastPairs sampleDB 2).length ∧
      views.length = (uniqueForecastPairs sampleDB 2).length ∧
      ∀ h ∈ newHeaders, h.batch_id = bulkBatchId 2 300 "u1".data :=
  ⟨by decide,
    (C8_bulk_snapshots sampleDB 2 "dana".data 300 "u1".data).2 (by decide)⟩

theorem find?_replaceFirstHeader (f : SnapshotHeaderRow → SnapshotHeaderRow)
    (sid : Int) (hid : ∀ h, (f h).id = h.id) :
    ∀ (l : List SnapshotHeaderRow) (hd : SnapshotHeaderRow),
      l.find? (fun h => h.id == sid) = some hd →
      (replaceFirstHeader f sid l).find? (fun h => h.id == sid) =
        some (f hd) := by
  intro l
  induction l with
  | nil => intro hd hf; simp [List.find?] at hf
  | cons a t ih =>
    intro hd hf
    by_cases ha : (a.id == sid) = true
    · rw [@List.find?_cons_of_pos _ (fun h => h.id == sid) a t ha] at hf
      obtain rfl := Option.some.inj hf
      rw [replaceFirstHeader, if_pos ha]
      exact @List.find?_cons_of_pos _ (fun h => h.id == sid) (f a) t
        (by show ((f a).id == sid) = true; rw [hid a]; exact ha)
    · rw [@List.find?_cons_of_neg _ (fun h => h.id == sid) a t ha] at hf
      rw [replaceFirstHeader, if_neg ha,
        @List.find?_cons_of_neg _ (fun h => h.id == sid) a
          (replaceFirstHeader f sid t) ha]
      exact ih hd hf

/-- C10: approving an existing snapshot header succeeds with no
precondition on its approval state, and unconditionally overwrites
`is_approved`, `approved_by` and `approved_at` with the new approver and
the current time. -/
theorem C10_approve_unconditional (db : DB) (sid : Int) (a : List Char)
    (now : Int) (hd : SnapshotHeaderRow)
    (hfind : db.snapshot_headers.find? (fun h => h.id == sid) = some hd) :
    ∃ db' res, approve db sid a now = some (db', res) ∧
      db'.snapshot_headers.find? (fun h => h.id == sid) =
        some { hd with is_approved := true, approved_by := some a,
                       approved_at := some now } := by
  refine ⟨{ db with
            snapshot_headers :=
              replaceFirstHeader (fun h => approveUpdate h a now) sid
                db.snapshot_headers },
    snapshot_header_to_yearly_view (approveUpdate hd a now)
      (db.snapshot_months.filter (fun m => m.snapshot_header_id == hd.id)),
    ?_, ?_⟩
  · rw [approve, hfind]
  · exact find?_replaceFirstHeader (fun h => approveUpdate h a now) sid
      (fun h => rfl) db.snapshot_headers hd hfind

/-- Witness for C10: re-approving the already-approved header of
`sampleDB` overwrites approver and timestamp. -/
theorem C10_approve_unconditional_witness :
    ∃ db' res, approve sampleDB 1 "carol".data 200 = some (db', res) ∧
      db'.snapshot_headers.find? (fun h => h.id == 1) =
        some { approvedHeader with
               is_approved := true
               approved_by := some "carol".data
               approved_at := some 200 } :=
  C10_approve_unconditional sampleDB 1 "carol".data 200 approvedHeader rfl

end ForecastApp
